import Mathlib

/-!
Shallow embedding of the sentinel dual-LLM analysis and scoring pipeline
(src/sentinel/evaluator.py and src/sentinel/dspy_program.py).

External collaborators (deepeval metric objects, dspy language-model
backends, the dspy judgment predictor) are modelled as function
parameters returning `Except String _`: an exception raised by the
collaborator is the `.error` case.  Scores are rationals.  Python dicts
whose key set varies (the per-metric result dicts) are modelled as a
record of `Option` fields, one per possible key, so that the presence or
absence of a key is observable.  Timestamps (calls to
`datetime.utcnow()`) are external nondeterminism and are not modelled;
no claim depends on them.
-/

namespace Sentinel

/-! ## Data model shared with the external collaborators -/

/-- deepeval `LLMTestCase(input, actual_output, expected_output, context)`. -/
structure LLMTestCase where
  input : String
  actual_output : String
  expected_output : Option String
  context : Option String
deriving DecidableEq, Repr

/-- What a deepeval metric exposes after a successful `measure` call:
`metric.score` and `metric.reason` (the latter possibly absent, matching
the `hasattr` check in `evaluate_analysis`). -/
structure MeasureOutput where
  score : ℚ
  reason : Option String
deriving DecidableEq, Repr

/-- A metric scoring function: `measure(test_case)` either succeeds or
raises (the `.error` case carries `str(e)`). -/
abbrev MeasureFn := LLMTestCase → Except String MeasureOutput

/-- A deepeval metric object: a fixed threshold plus its scoring
function. -/
structure Metric where
  threshold : ℚ
  measure : MeasureFn

/-- One per-metric result dict.  Each field is `some _` exactly when the
corresponding key is present in the Python dict. -/
structure MetricEntry where
  score : Option ℚ
  threshold : Option ℚ
  passed : Option Bool
  reason : Option (Option String)
  error : Option String
deriving DecidableEq, Repr

/-- The dict with no keys. -/
def emptyEntry : MetricEntry := ⟨none, none, none, none, none⟩

/-! ## evaluator.py : SentinelEvaluator -/

/-- `SentinelEvaluator`: the metric registry built in `__init__`
(an insertion-ordered dict, modelled as an association list). -/
structure SentinelEvaluator where
  metrics : List (String × Metric)

/-- `SentinelEvaluator.__init__`: the four deepeval metrics with their
fixed thresholds.  The scoring functions themselves are external
collaborators, so they are parameters. -/
def SentinelEvaluator.init (mRelevance mHallucination mAnswerRelevancy mFaithfulness :
    MeasureFn) : SentinelEvaluator :=
  ⟨[("relevance", ⟨7/10, mRelevance⟩),
    ("hallucination", ⟨1/2, mHallucination⟩),
    ("answer_relevancy", ⟨7/10, mAnswerRelevancy⟩),
    ("faithfulness", ⟨7/10, mFaithfulness⟩)]⟩

/-- `SentinelEvaluator.create_test_case`. -/
def create_test_case (input_text actual_output : String)
    (expected_output context : Option String) : LLMTestCase :=
  ⟨input_text, actual_output, expected_output, context⟩

/-- The per-metric try/except body of `evaluate_analysis` (lines 69-81):
on success the full dict `score/threshold/passed/reason`, on exception
the dict `error/passed=False`. -/
def measureEntryFull (m : Metric) (tc : LLMTestCase) : MetricEntry :=
  match m.measure tc with
  | .ok out =>
      { emptyEntry with
        score := some out.score
        threshold := some m.threshold
        passed := some (decide (out.score ≥ m.threshold))
        reason := some out.reason }
  | .error e =>
      { emptyEntry with error := some e, passed := some false }

/-- Return value of `evaluate_analysis` (timestamp omitted). -/
structure EvalAnalysis where
  test_case : LLMTestCase
  results : List (String × MetricEntry)
deriving Repr

/-- `SentinelEvaluator.evaluate_analysis` (lines 50-87). -/
def SentinelEvaluator.evaluate_analysis (ev : SentinelEvaluator)
    (log_snippet analysis : String) (expected_severity : Option String) :
    EvalAnalysis :=
  let tc := create_test_case log_snippet analysis expected_severity
      (some "Installation log analysis")
  ⟨tc, ev.metrics.map fun p => (p.1, measureEntryFull p.2 tc)⟩

/-- One row of the per-metric comparison table. -/
structure ComparisonEntry where
  ollama : ℚ
  cloud : ℚ
  difference : ℚ
  better : String
deriving DecidableEq, Repr

/-- Return value of `evaluate_comparison` (timestamp omitted). -/
structure ComparisonEvaluation where
  ollama_evaluation : EvalAnalysis
  cloud_evaluation : EvalAnalysis
  comparison : List (String × ComparisonEntry)

/-- `results.get(metric_name, \x7b\x7d).get('score', 0)`
(lines 103-104). -/
def getScoreD (results : List (String × MetricEntry)) (name : String) : ℚ :=
  match results.lookup name with
  | none => 0
  | some e => e.score.getD 0

/-- `SentinelEvaluator.evaluate_comparison` (lines 89-118). -/
def SentinelEvaluator.evaluate_comparison (ev : SentinelEvaluator)
    (log_snippet ollama_analysis cloud_analysis : String) :
    ComparisonEvaluation :=
  let ollama_eval := ev.evaluate_analysis log_snippet ollama_analysis none
  let cloud_eval := ev.evaluate_analysis log_snippet cloud_analysis none
  let comparison := ev.metrics.map fun p =>
    let ollama_score := getScoreD ollama_eval.results p.1
    let cloud_score := getScoreD cloud_eval.results p.1
    (p.1, ({ ollama := ollama_score
             cloud := cloud_score
             difference := cloud_score - ollama_score
             better := if cloud_score > ollama_score then "cloud" else "ollama" } :
             ComparisonEntry))
  ⟨ollama_eval, cloud_eval, comparison⟩

/-- The per-metric try/except body of `batch_evaluate` (lines 127-134):
on success the dict `score/passed` only, on exception the dict with the
single key `error` (no `passed` key). -/
def measureEntryBatch (m : Metric) (tc : LLMTestCase) : MetricEntry :=
  match m.measure tc with
  | .ok out =>
      { emptyEntry with
        score := some out.score
        passed := some (decide (out.score ≥ m.threshold)) }
  | .error e => { emptyEntry with error := some e }

/-- One element of `individual_results`. -/
structure IndividualResult where
  test_case : LLMTestCase
  results : List (String × MetricEntry)
deriving Repr

/-- One per-metric aggregate row. -/
structure AggregateEntry where
  mean : ℚ
  min : ℚ
  max : ℚ
  count : Nat
deriving DecidableEq, Repr

/-- Return value of `batch_evaluate` (timestamp omitted). -/
structure BatchResult where
  individual_results : List IndividualResult
  aggregate_scores : List (String × AggregateEntry)

/-- The `scores` list comprehension of `batch_evaluate` (lines 143-147):
the scores of the cases whose entry for `name` has a `score` key. -/
def scoresFor (results : List IndividualResult) (name : String) : List ℚ :=
  results.filterMap fun r => (r.results.lookup name).bind fun e => e.score

/-- The aggregate row for one metric (lines 148-154): `None` when no
case produced a numeric score, otherwise mean/min/max/count over the
scored cases. -/
def aggEntry (results : List IndividualResult) (p : String × Metric) :
    Option AggregateEntry :=
  match scoresFor results p.1 with
  | [] => none
  | s :: rest =>
      some { mean := (s :: rest).sum / ((s :: rest).length : ℚ)
             min := rest.foldl Min.min s
             max := rest.foldl Max.max s
             count := (s :: rest).length }

/-- The aggregate dict of `batch_evaluate` (lines 141-154). -/
def aggregateOf (ms : List (String × Metric)) (results : List IndividualResult) :
    List (String × AggregateEntry) :=
  ms.filterMap fun p => (aggEntry results p).map fun a => (p.1, a)

/-- `SentinelEvaluator.batch_evaluate` (lines 120-160). -/
def SentinelEvaluator.batch_evaluate (ev : SentinelEvaluator)
    (test_cases : List LLMTestCase) : BatchResult :=
  let results := test_cases.map fun tc =>
    ({ test_case := tc
       results := ev.metrics.map fun p => (p.1, measureEntryBatch p.2 tc) } :
       IndividualResult)
  ⟨results, aggregateOf ev.metrics results⟩

/-! ## dspy_program.py : SentinelAnalyzer, LLMComparator -/

/-- A dspy prediction as returned by a backend: each output field may be
absent (attribute access on an absent field raises). -/
structure Prediction where
  severity : Option String
  category : Option String
  pattern_matched : Option String
  suggested_action : Option String
  learning_candidate : Option Bool
deriving DecidableEq, Repr

/-- The five structured fields as assembled by `forward` (lines 67-73
and 79-85): all keys are always present in the dict literal. -/
structure StructuredFields where
  severity : String
  category : String
  pattern_matched : String
  suggested_action : String
  learning_candidate : Bool
deriving DecidableEq, Repr

/-- A model backend: analyzing a log snippet either yields a prediction
or raises. -/
abbrev Backend := String → Except String Prediction

/-- Building the result dict from a prediction (attribute accesses on
lines 68-72 / 80-84): raises if any required field is absent. -/
def extractFields (p : Prediction) : Except String StructuredFields :=
  match p.severity, p.category, p.pattern_matched, p.suggested_action,
      p.learning_candidate with
  | some s, some c, some pm, some sa, some lc => .ok ⟨s, c, pm, sa, lc⟩
  | _, _, _, _, _ => .error "AttributeError"

/-- Return value of the dspy `LLMComparator.compare` judgment
(timestamp omitted); its contents are produced by the external
predictor and treated as opaque text. -/
structure ComparisonReport where
  differences : String
  agreement_score : String
  recommendation : String
deriving DecidableEq, Repr

/-- The `results` dict of `forward` / `analyze_with_dual_llm`: keys
`ollama`, `cloud`, `comparison`, each present iff `some`. -/
structure DualResult where
  ollama : Option StructuredFields
  cloud : Option StructuredFields
  comparison : Option ComparisonReport
deriving DecidableEq, Repr

/-- `SentinelAnalyzer.forward` (lines 59-87), instrumented: the second
component records whether the cloud analyzer was invoked.  The ollama
analyzer runs first with no exception handling, so an exception there
propagates before the cloud block is reached. -/
def SentinelAnalyzer.forwardT (ollama_lm cloud_lm : Backend)
    (log_snippet : String) (use_both : Bool) :
    Except String DualResult × Bool :=
  match (ollama_lm log_snippet).bind extractFields with
  | .error e => (.error e, false)
  | .ok ollamaFields =>
      if use_both then
        match (cloud_lm log_snippet).bind extractFields with
        | .error e => (.error e, true)
        | .ok cloudFields => (.ok ⟨some ollamaFields, some cloudFields, none⟩, true)
      else
        (.ok ⟨some ollamaFields, none, none⟩, false)

/-- `SentinelAnalyzer.forward`: the returned results dict. -/
def SentinelAnalyzer.forward (ollama_lm cloud_lm : Backend)
    (log_snippet : String) (use_both : Bool) : Except String DualResult :=
  (SentinelAnalyzer.forwardT ollama_lm cloud_lm log_snippet use_both).1

/-- Whether `forward` invoked the cloud analyzer. -/
def SentinelAnalyzer.forwardCloudAttempted (ollama_lm cloud_lm : Backend)
    (log_snippet : String) (use_both : Bool) : Bool :=
  (SentinelAnalyzer.forwardT ollama_lm cloud_lm log_snippet use_both).2

/-- The external dspy judgment used by `LLMComparator.compare`: it
receives the two structured results (serialized) and either yields a
report or raises. -/
abbrev Judge := StructuredFields → StructuredFields → Except String ComparisonReport

/-- `analyze_with_dual_llm` (lines 119-153): runs the analyzer with
`use_both=True`, then attaches the comparison when `compare` is true and
both the ollama and cloud keys are present. -/
def analyze_with_dual_llm (ollama_lm cloud_lm : Backend) (judge : Judge)
    (log_snippet : String) (compare : Bool) : Except String DualResult :=
  match SentinelAnalyzer.forward ollama_lm cloud_lm log_snippet true with
  | .error e => .error e
  | .ok results =>
      match compare, results.ollama, results.cloud with
      | true, some o, some c =>
          match judge o c with
          | .error e => .error e
          | .ok comp => .ok { results with comparison := some comp }
      | _, _, _ => .ok results

/-! ## Small helpers used in the statements -/

/-- Whether an `Except` computation succeeded. -/
def exceptIsOk {ε α : Type} : Except ε α → Bool
  | .ok _ => true
  | .error _ => false

/-- The score of a measurement, with a raised measurement contributing
0 (the comparison-table default). -/
def scoreOrZero : Except String MeasureOutput → ℚ
  | .ok out => out.score
  | .error _ => 0

/-- The four registry metric names in registry order. -/
def metricNames : List String :=
  ["relevance", "hallucination", "answer_relevancy", "faithfulness"]

/-- A metric scoring function that always succeeds with a fixed score. -/
def mConst (q : ℚ) : MeasureFn := fun _ => .ok ⟨q, none⟩

/-- A metric scoring function that always raises. -/
def mFail (msg : String) : MeasureFn := fun _ => .error msg

/-! ## General lemmas about keyed association lists -/

theorem lookup_map_keyed {β γ : Type} (f : String × β → γ) :
    ∀ (ms : List (String × β)) (name : String) (m : β),
      (ms.map Prod.fst).Nodup → (name, m) ∈ ms →
      (ms.map fun p => (p.1, f p)).lookup name = some (f (name, m)) := by
  intro ms
  induction ms with
  | nil => intro name m _ hmem; exact absurd hmem (List.not_mem_nil _)
  | cons hd tl ih =>
      intro name m hnd hmem
      rcases List.mem_cons.mp hmem with heq | htail
      · subst heq
        simp [List.lookup]
      · have hne : name ≠ hd.1 := by
          intro h
          have h1 : name ∈ tl.map Prod.fst := by
            simpa using List.mem_map_of_mem Prod.fst htail
          rw [List.map_cons, List.nodup_cons] at hnd
          exact hnd.1 (h ▸ h1)
        have hrec := ih name m
          (by rw [List.map_cons, List.nodup_cons] at hnd; exact hnd.2) htail
        simpa [List.lookup, beq_eq_false_iff_ne.mpr hne] using hrec

theorem lookup_filterMap_none {β γ : Type} (f : String × β → Option γ)
    (name : String) :
    ∀ (ms : List (String × β)), name ∉ ms.map Prod.fst →
      (ms.filterMap fun p => (f p).map fun a => (p.1, a)).lookup name = none := by
  intro ms
  induction ms with
  | nil => intro _; simp
  | cons hd tl ih =>
      intro hnm
      simp only [List.map_cons, List.mem_cons, not_or] at hnm
      rw [List.filterMap_cons]
      cases hfd : f hd with
      | none => exact ih hnm.2
      | some a =>
          simp only [Option.map_some']
          rw [List.lookup_cons]
          simp only [beq_eq_false_iff_ne.mpr hnm.1]
          exact ih hnm.2

theorem lookup_filterMap_keyed {β γ : Type} (f : String × β → Option γ) :
    ∀ (ms : List (String × β)) (name : String) (m : β),
      (ms.map Prod.fst).Nodup → (name, m) ∈ ms →
      (ms.filterMap fun p => (f p).map fun a => (p.1, a)).lookup name
        = f (name, m) := by
  intro ms
  induction ms with
  | nil => intro name m _ hmem; exact absurd hmem (List.not_mem_nil _)
  | cons hd tl ih =>
      intro name m hnd hmem
      rw [List.map_cons, List.nodup_cons] at hnd
      rcases List.mem_cons.mp hmem with heq | htail
      · subst heq
        rw [List.filterMap_cons]
        cases hfd : f (name, m) with
        | none => exact lookup_filterMap_none f name tl hnd.1
        | some a => simp [List.lookup]
      · have hne : name ≠ hd.1 := by
          intro h
          have h1 : name ∈ tl.map Prod.fst := by
            simpa using List.mem_map_of_mem Prod.fst htail
          exact hnd.1 (h ▸ h1)
        have hrec := ih name m hnd.2 htail
        rw [List.filterMap_cons]
        cases hfd : f hd with
        | none => exact hrec
        | some a =>
            simp only [Option.map_some']
            rw [List.lookup_cons]
            simp only [beq_eq_false_iff_ne.mpr hne]
            exact hrec

/-! ## General lemmas about fold-based min, max and the mean -/

theorem foldl_min_le_init : ∀ (l : List ℚ) (a : ℚ), l.foldl Min.min a ≤ a := by
  intro l
  induction l with
  | nil => intro a; simp
  | cons b t ih =>
      intro a
      calc (b :: t).foldl Min.min a = t.foldl Min.min (min a b) := rfl
        _ ≤ min a b := ih _
        _ ≤ a := min_le_left _ _

theorem foldl_min_le_mem : ∀ (l : List ℚ) (a x : ℚ), x ∈ l →
    l.foldl Min.min a ≤ x := by
  intro l
  induction l with
  | nil => intro a x hx; exact absurd hx (List.not_mem_nil _)
  | cons b t ih =>
      intro a x hx
      rcases List.mem_cons.mp hx with rfl | hxt
      · calc (x :: t).foldl Min.min a = t.foldl Min.min (min a x) := rfl
          _ ≤ min a x := foldl_min_le_init _ _
          _ ≤ x := min_le_right _ _
      · exact ih (min a b) x hxt

theorem init_le_foldl_max : ∀ (l : List ℚ) (a : ℚ), a ≤ l.foldl Max.max a := by
  intro l
  induction l with
  | nil => intro a; simp
  | cons b t ih =>
      intro a
      calc a ≤ max a b := le_max_left _ _
        _ ≤ t.foldl Max.max (max a b) := ih _
        _ = (b :: t).foldl Max.max a := rfl

theorem mem_le_foldl_max : ∀ (l : List ℚ) (a x : ℚ), x ∈ l →
    x ≤ l.foldl Max.max a := by
  intro l
  induction l with
  | nil => intro a x hx; exact absurd hx (List.not_mem_nil _)
  | cons b t ih =>
      intro a x hx
      rcases List.mem_cons.mp hx with rfl | hxt
      · calc x ≤ max a x := le_max_right _ _
          _ ≤ t.foldl Max.max (max a x) := init_le_foldl_max _ _
          _ = (x :: t).foldl Max.max a := rfl
      · exact ih (max a b) x hxt

theorem length_mul_le_sum (m : ℚ) : ∀ (l : List ℚ), (∀ x ∈ l, m ≤ x) →
    (l.length : ℚ) * m ≤ l.sum := by
  intro l
  induction l with
  | nil => intro _; simp
  | cons b t ih =>
      intro h
      have hb : m ≤ b := h b (List.mem_cons_self _ _)
      have ht := ih fun x hx => h x (List.mem_cons_of_mem _ hx)
      simp only [List.length_cons, List.sum_cons]
      push_cast
      nlinarith

theorem sum_le_length_mul (m : ℚ) : ∀ (l : List ℚ), (∀ x ∈ l, x ≤ m) →
    l.sum ≤ (l.length : ℚ) * m := by
  intro l
  induction l with
  | nil => intro _; simp
  | cons b t ih =>
      intro h
      have hb : b ≤ m := h b (List.mem_cons_self _ _)
      have ht := ih fun x hx => h x (List.mem_cons_of_mem _ hx)
      simp only [List.length_cons, List.sum_cons]
      push_cast
      nlinarith

theorem mean_between (s : ℚ) (rest : List ℚ) :
    rest.foldl Min.min s ≤ (s :: rest).sum / (((s :: rest).length : ℚ)) ∧
    (s :: rest).sum / (((s :: rest).length : ℚ)) ≤ rest.foldl Max.max s := by
  have hpos : (0 : ℚ) < ((s :: rest).length : ℚ) := by
    simp only [List.length_cons]
    positivity
  constructor
  · rw [le_div_iff₀ hpos]
    have hlo : ∀ x ∈ s :: rest, rest.foldl Min.min s ≤ x := by
      intro x hx
      rcases List.mem_cons.mp hx with rfl | hxt
      · exact foldl_min_le_init _ _
      · exact foldl_min_le_mem _ _ _ hxt
    have h := length_mul_le_sum (rest.foldl Min.min s) (s :: rest) hlo
    linarith [h]
  · rw [div_le_iff₀ hpos]
    have hhi : ∀ x ∈ s :: rest, x ≤ rest.foldl Max.max s := by
      intro x hx
      rcases List.mem_cons.mp hx with rfl | hxt
      · exact init_le_foldl_max _ _
      · exact mem_le_foldl_max _ _ _ hxt
    have h := sum_le_length_mul (rest.foldl Max.max s) (s :: rest) hhi
    linarith [h]

/-! ## Registry facts -/

theorem metricNames_nodup : metricNames.Nodup := by decide

theorem init_metrics_fst (m1 m2 m3 m4 : MeasureFn) :
    (SentinelEvaluator.init m1 m2 m3 m4).metrics.map Prod.fst = metricNames := rfl

theorem init_metrics_nodup (m1 m2 m3 m4 : MeasureFn) :
    ((SentinelEvaluator.init m1 m2 m3 m4).metrics.map Prod.fst).Nodup := by
  rw [init_metrics_fst]
  exact metricNames_nodup

/-! ## Claim theorems -/

/-- C1: in `evaluate_analysis`, when one metric's scoring function raises,
the exception is not propagated: the returned results still contain an
entry for every registry metric in registry order, the failing metric is
recorded as an error entry with `passed = false`, and every metric whose
scoring function succeeds is still scored with its full score entry. -/
theorem evaluate_analysis_isolation
    (m1 m2 m3 m4 : MeasureFn) (log_snippet analysis : String)
    (expected_severity : Option String) (name : String) (metric : Metric)
    (hmem : (name, metric) ∈ (SentinelEvaluator.init m1 m2 m3 m4).metrics) :
    ((SentinelEvaluator.init m1 m2 m3 m4).evaluate_analysis log_snippet analysis
        expected_severity).results.map Prod.fst = metricNames ∧
    (∀ e, metric.measure (create_test_case log_snippet analysis expected_severity
          (some "Installation log analysis")) = .error e →
        ((SentinelEvaluator.init m1 m2 m3 m4).evaluate_analysis log_snippet analysis
            expected_severity).results.lookup name
          = some { emptyEntry with error := some e, passed := some false }) ∧
    (∀ out, metric.measure (create_test_case log_snippet analysis expected_severity
          (some "Installation log analysis")) = .ok out →
        ((SentinelEvaluator.init m1 m2 m3 m4).evaluate_analysis log_snippet analysis
            expected_severity).results.lookup name
          = some { emptyEntry with
                    score := some out.score
                    threshold := some metric.threshold
                    passed := some (decide (out.score ≥ metric.threshold))
                    reason := some out.reason }) := by
  have hlk : ((SentinelEvaluator.init m1 m2 m3 m4).evaluate_analysis log_snippet
      analysis expected_severity).results.lookup name
      = some (measureEntryFull metric (create_test_case log_snippet analysis
          expected_severity (some "Installation log analysis"))) :=
    lookup_map_keyed _ _ name metric (init_metrics_nodup m1 m2 m3 m4) hmem
  refine ⟨rfl, ?_, ?_⟩
  · intro e he
    rw [hlk]
    simp [measureEntryFull, he]
  · intro out hout
    rw [hlk]
    simp [measureEntryFull, hout]

/-- Witness for C1: a registry where the hallucination metric always
raises and the others always score 1. -/
theorem evaluate_analysis_isolation_witness :
    ((SentinelEvaluator.init (mConst 1) (mFail "boom") (mConst 1)
        (mConst 1)).evaluate_analysis "log" "analysis" none).results.lookup
      "hallucination"
      = some { emptyEntry with error := some "boom", passed := some false } ∧
    ((SentinelEvaluator.init (mConst 1) (mFail "boom") (mConst 1)
        (mConst 1)).evaluate_analysis "log" "analysis" none).results.lookup
      "relevance"
      = some { emptyEntry with
                score := some 1
                threshold := some (7/10)
                passed := some (decide ((1 : ℚ) ≥ 7/10))
                reason := some none } :=
  ⟨(evaluate_analysis_isolation (mConst 1) (mFail "boom") (mConst 1) (mConst 1)
      "log" "analysis" none "hallucination" ⟨1/2, mFail "boom"⟩
      (List.mem_cons_of_mem _ (List.mem_cons_self _ _))).2.1 "boom" rfl,
   (evaluate_analysis_isolation (mConst 1) (mFail "boom") (mConst 1) (mConst 1)
      "log" "analysis" none "relevance" ⟨7/10, mConst 1⟩
      (List.mem_cons_self _ _)).2.2 ⟨1, none⟩ rfl⟩

/-- C2 (amended): every entry of `evaluate_analysis` either carries a
numeric score with `passed = (score ≥ threshold)` and no error key, or
carries an error with `passed = false` and no score key.  Every entry of
`batch_evaluate` either carries a numeric score with
`passed = (score ≥ threshold)` and no error key, or carries an error
with no `passed` key at all (rather than `passed = false`). -/
theorem metric_entry_shapes
    (m1 m2 m3 m4 : MeasureFn) (log_snippet analysis : String)
    (expected_severity : Option String) (test_cases : List LLMTestCase)
    (name : String) (metric : Metric)
    (hmem : (name, metric) ∈ (SentinelEvaluator.init m1 m2 m3 m4).metrics) :
    (∃ q, ((SentinelEvaluator.init m1 m2 m3 m4).evaluate_analysis log_snippet
        analysis expected_severity).results.lookup name = some q ∧
      ((∃ s, q.score = some s ∧ q.threshold = some metric.threshold ∧
          q.passed = some (decide (s ≥ metric.threshold)) ∧ q.error = none) ∨
       (q.error.isSome = true ∧ q.passed = some false ∧ q.score = none))) ∧
    (∀ r ∈ ((SentinelEvaluator.init m1 m2 m3 m4).batch_evaluate
        test_cases).individual_results,
      ∃ q, r.results.lookup name = some q ∧
        ((∃ s, q.score = some s ∧
            q.passed = some (decide (s ≥ metric.threshold)) ∧ q.error = none) ∨
         (q.error.isSome = true ∧ q.passed = none ∧ q.score = none))) := by
  constructor
  · refine ⟨measureEntryFull metric (create_test_case log_snippet analysis
        expected_severity (some "Installation log analysis")),
      lookup_map_keyed _ _ name metric (init_metrics_nodup m1 m2 m3 m4) hmem, ?_⟩
    cases hm : metric.measure (create_test_case log_snippet analysis
        expected_severity (some "Installation log analysis")) with
    | ok out =>
        left
        exact ⟨out.score, by simp [measureEntryFull, emptyEntry, hm]⟩
    | error e =>
        right
        simp [measureEntryFull, emptyEntry, hm]
  · intro r hr
    have hr' : r ∈ test_cases.map (fun tc =>
        ({ test_case := tc
           results := (SentinelEvaluator.init m1 m2 m3 m4).metrics.map
             fun p => (p.1, measureEntryBatch p.2 tc) } : IndividualResult)) := hr
    obtain ⟨tc, _, rfl⟩ := List.mem_map.mp hr'
    refine ⟨measureEntryBatch metric tc,
      lookup_map_keyed _ _ name metric (init_metrics_nodup m1 m2 m3 m4) hmem, ?_⟩
    cases hm : metric.measure tc with
    | ok out =>
        left
        exact ⟨out.score, by simp [measureEntryBatch, emptyEntry, hm]⟩
    | error e =>
        right
        simp [measureEntryBatch, emptyEntry, hm]

/-- Witness for C2 (amended) at a concrete registry and batch. -/
theorem metric_entry_shapes_witness :
    (∃ q, ((SentinelEvaluator.init (mConst 1) (mFail "boom") (mConst 1)
        (mConst 1)).evaluate_analysis "log" "analysis" none).results.lookup
          "hallucination" = some q ∧
      ((∃ s, q.score = some s ∧ q.threshold = some (1/2 : ℚ) ∧
          q.passed = some (decide (s ≥ (1/2 : ℚ))) ∧ q.error = none) ∨
       (q.error.isSome = true ∧ q.passed = some false ∧ q.score = none))) ∧
    (∀ r ∈ ((SentinelEvaluator.init (mConst 1) (mFail "boom") (mConst 1)
        (mConst 1)).batch_evaluate
          [⟨"log", "analysis", none, none⟩]).individual_results,
      ∃ q, r.results.lookup "hallucination" = some q ∧
        ((∃ s, q.score = some s ∧
            q.passed = some (decide (s ≥ (1/2 : ℚ))) ∧ q.error = none) ∨
         (q.error.isSome = true ∧ q.passed = none ∧ q.score = none))) :=
  metric_entry_shapes (mConst 1) (mFail "boom") (mConst 1) (mConst 1)
    "log" "analysis" none [⟨"log", "analysis", none, none⟩]
    "hallucination" ⟨1/2, mFail "boom"⟩
    (List.mem_cons_of_mem _ (List.mem_cons_self _ _))

/-- C2 counterexample: in `batch_evaluate`, an error-bearing entry
carries only the error key; its `passed` key is absent, not `false`. -/
theorem batch_error_entry_no_passed_counterexample :
    (((SentinelEvaluator.init (mConst 1) (mFail "boom") (mConst 1)
        (mConst 1)).batch_evaluate
          [⟨"log", "analysis", none, none⟩]).individual_results.map
      fun r => r.results.lookup "hallucination")
      = [some { emptyEntry with error := some "boom" }] ∧
    ({ emptyEntry with error := some "boom" } : MetricEntry).passed = none ∧
    ¬ ({ emptyEntry with error := some "boom" } : MetricEntry).passed
        = some false := by
  refine ⟨rfl, rfl, by decide⟩

/-- A backend whose invocation raises. -/
def failLM (msg : String) : Backend := fun _ => .error msg

/-- A backend that returns a complete prediction. -/
def okLM (sev : String) : Backend :=
  fun _ => .ok ⟨some sev, some "cat", some "pat", some "act", some true⟩

/-- A backend that returns a prediction with the severity field absent. -/
def missingFieldLM : Backend :=
  fun _ => .ok ⟨none, some "cat", some "pat", some "act", some true⟩

/-- A judgment task that always returns a fixed report. -/
def judgeOk : Judge := fun _ _ => .ok ⟨"none", "high", "either"⟩

theorem extractFields_ok_inv (p : Prediction) (f : StructuredFields)
    (h : extractFields p = .ok f) :
    p = ⟨some f.severity, some f.category, some f.pattern_matched,
         some f.suggested_action, some f.learning_candidate⟩ := by
  obtain ⟨s, c, pm, sa, lc⟩ := p
  cases s <;> cases c <;> cases pm <;> cases sa <;> cases lc <;>
    simp only [extractFields] at h
  all_goals
    first
      | exact Except.noConfusion h
      | (rw [Except.ok.injEq] at h; rw [← h])

/-- Inversion of a successful `forward` call: the local extraction
succeeded, and the shape of the result is determined by `use_both`. -/
theorem forward_ok_inv (ollama_lm cloud_lm : Backend) (log_snippet : String)
    (use_both : Bool) (r : DualResult)
    (h : SentinelAnalyzer.forward ollama_lm cloud_lm log_snippet use_both
        = .ok r) :
    ∃ of, (ollama_lm log_snippet).bind extractFields = .ok of ∧
      ((use_both = true ∧
          ∃ cf, (cloud_lm log_snippet).bind extractFields = .ok cf ∧
            r = ⟨some of, some cf, none⟩) ∨
       (use_both = false ∧ r = ⟨some of, none, none⟩)) := by
  unfold SentinelAnalyzer.forward SentinelAnalyzer.forwardT at h
  cases hb : (ollama_lm log_snippet).bind extractFields with
  | error e => rw [hb] at h; simp at h
  | ok of =>
      rw [hb] at h
      refine ⟨of, rfl, ?_⟩
      cases use_both with
      | true =>
          simp only [if_true] at h
          cases hc : (cloud_lm log_snippet).bind extractFields with
          | error e => rw [hc] at h; simp at h
          | ok cf =>
              rw [hc] at h
              have h' := Except.ok.inj h
              exact Or.inl ⟨rfl, cf, rfl, h'.symm⟩
      | false =>
          simp only [if_false] at h
          have h' := Except.ok.inj h
          exact Or.inr ⟨rfl, h'.symm⟩

/-- C3 (amended): building the results dict in `forward` fails whenever
the backend call errors or the prediction is missing a required field
(the raised error propagates to the caller; there is no dedicated
ExtractionFailure type); every structured result of a successful
extraction carries all five fields, and each field — the severity
included — is exactly the string the backend returned, with no
validation against the four severity levels. -/
theorem forward_extraction_contract (ollama_lm cloud_lm : Backend)
    (log_snippet : String) (use_both : Bool) :
    (∀ e, (ollama_lm log_snippet).bind extractFields = .error e →
        SentinelAnalyzer.forward ollama_lm cloud_lm log_snippet use_both
          = .error e) ∧
    (∀ r f, SentinelAnalyzer.forward ollama_lm cloud_lm log_snippet use_both
          = .ok r → r.ollama = some f →
        ollama_lm log_snippet = .ok ⟨some f.severity, some f.category,
          some f.pattern_matched, some f.suggested_action,
          some f.learning_candidate⟩) ∧
    (∀ r f, SentinelAnalyzer.forward ollama_lm cloud_lm log_snippet use_both
          = .ok r → r.cloud = some f →
        cloud_lm log_snippet = .ok ⟨some f.severity, some f.category,
          some f.pattern_matched, some f.suggested_action,
          some f.learning_candidate⟩) := by
  refine ⟨?_, ?_, ?_⟩
  · intro e he
    unfold SentinelAnalyzer.forward SentinelAnalyzer.forwardT
    rw [he]
  · intro r f hok hol
    obtain ⟨of, hb, hrest⟩ :=
      forward_ok_inv ollama_lm cloud_lm log_snippet use_both r hok
    have hof : of = f := by
      rcases hrest with ⟨_, cf, hc, rfl⟩ | ⟨_, rfl⟩ <;> simpa using hol
    cases hpl : ollama_lm log_snippet with
    | error e => rw [hpl] at hb; exact absurd hb (by simp [Except.bind])
    | ok p =>
        rw [hpl] at hb
        have hext : extractFields p = .ok of := hb
        rw [extractFields_ok_inv p of hext, hof]
  · intro r f hok hcl
    obtain ⟨of, hb, hrest⟩ :=
      forward_ok_inv ollama_lm cloud_lm log_snippet use_both r hok
    rcases hrest with ⟨_, cf, hc, rfl⟩ | ⟨_, rfl⟩
    · have hcf : cf = f := by simpa using hcl
      cases hpl : cloud_lm log_snippet with
      | error e => rw [hpl] at hc; exact absurd hc (by simp [Except.bind])
      | ok p =>
          rw [hpl] at hc
          have hext : extractFields p = .ok cf := hc
          rw [extractFields_ok_inv p cf hext, hcf]
    · exact absurd hcl (by simp)

/-- Witness for C3: a failing backend makes the call fail; the fields of
a successful result are exactly the backend's strings. -/
theorem forward_extraction_contract_witness :
    SentinelAnalyzer.forward (failLM "ConnectionError") (okLM "ERROR") "log" true
      = .error "ConnectionError" ∧
    okLM "ERROR" "log" = .ok ⟨some "ERROR", some "cat", some "pat",
      some "act", some true⟩ :=
  ⟨(forward_extraction_contract (failLM "ConnectionError") (okLM "ERROR")
      "log" true).1 "ConnectionError" rfl,
   (forward_extraction_contract (okLM "ERROR") (okLM "ERROR") "log" true).2.1
      ⟨some ⟨"ERROR", "cat", "pat", "act", true⟩,
       some ⟨"ERROR", "cat", "pat", "act", true⟩, none⟩
      ⟨"ERROR", "cat", "pat", "act", true⟩ rfl rfl⟩

/-- C3 counterexample: a successful extraction whose severity is not one
of the four defined levels — `forward` performs no severity
validation. -/
theorem forward_severity_unvalidated_counterexample :
    SentinelAnalyzer.forward (okLM "BANANA") (okLM "BANANA") "log" false
      = .ok ⟨some ⟨"BANANA", "cat", "pat", "act", true⟩, none, none⟩ ∧
    "BANANA" ∉ (["INFO", "WARN", "ERROR", "CRITICAL"] : List String) := by
  refine ⟨rfl, by decide⟩

/-- C4 counterexample: with `use_both = true` and a local backend that
raises, the cloud analyzer is never invoked and the call fails with the
local error, although the cloud backend would have succeeded. -/
theorem forward_local_failure_blocks_cloud_counterexample :
    SentinelAnalyzer.forwardCloudAttempted (failLM "ConnectionError")
      (okLM "ERROR") "log" true = false ∧
    SentinelAnalyzer.forward (failLM "ConnectionError") (okLM "ERROR")
      "log" true = .error "ConnectionError" :=
  ⟨rfl, rfl⟩

/-- C4 (amended): with `use_both = true` the two extractions are not
attempted independently: the cloud extraction is attempted iff the local
extraction succeeded, a local failure aborts the call with that error
before the cloud backend is invoked, and a cloud failure likewise fails
the whole call (no partial result). -/
theorem forward_dependent_attempts (ollama_lm cloud_lm : Backend)
    (log_snippet : String) :
    SentinelAnalyzer.forwardCloudAttempted ollama_lm cloud_lm log_snippet true
      = exceptIsOk ((ollama_lm log_snippet).bind extractFields) ∧
    (∀ e, (ollama_lm log_snippet).bind extractFields = .error e →
        SentinelAnalyzer.forward ollama_lm cloud_lm log_snippet true
          = .error e) ∧
    (∀ of e, (ollama_lm log_snippet).bind extractFields = .ok of →
        (cloud_lm log_snippet).bind extractFields = .error e →
        SentinelAnalyzer.forward ollama_lm cloud_lm log_snippet true
          = .error e) := by
  refine ⟨?_, ?_, ?_⟩
  · unfold SentinelAnalyzer.forwardCloudAttempted SentinelAnalyzer.forwardT
    cases hb : (ollama_lm log_snippet).bind extractFields with
    | error e => rfl
    | ok of =>
        cases hc : (cloud_lm log_snippet).bind extractFields <;> rfl
  · intro e he
    unfold SentinelAnalyzer.forward SentinelAnalyzer.forwardT
    rw [he]
  · intro of e hb hc
    unfold SentinelAnalyzer.forward SentinelAnalyzer.forwardT
    rw [hb, hc]
    rfl

/-- Witness for C4 (amended) at concrete backends. -/
theorem forward_dependent_attempts_witness :
    SentinelAnalyzer.forwardCloudAttempted (okLM "ERROR") (failLM "boom")
      "log" true = exceptIsOk ((okLM "ERROR" "log").bind extractFields) ∧
    SentinelAnalyzer.forward (failLM "down") (okLM "ERROR") "log" true
      = .error "down" ∧
    SentinelAnalyzer.forward (okLM "ERROR") (failLM "boom") "log" true
      = .error "boom" :=
  ⟨(forward_dependent_attempts (okLM "ERROR") (failLM "boom") "log").1,
   (forward_dependent_attempts (failLM "down") (okLM "ERROR") "log").2.1
      "down" rfl,
   (forward_dependent_attempts (okLM "ERROR") (failLM "boom") "log").2.2
      ⟨"ERROR", "cat", "pat", "act", true⟩ "boom" rfl rfl⟩

/-- C5: on every successful `forward` call the ollama result is present,
the cloud result is present iff `use_both` was true, and `forward` never
attaches a comparison; on every successful `analyze_with_dual_llm` call
the comparison is attached iff `compare` is true and both the ollama and
cloud results are present. -/
theorem dual_result_presence (ollama_lm cloud_lm : Backend) (judge : Judge)
    (log_snippet : String) (use_both compare : Bool) :
    (∀ r, SentinelAnalyzer.forward ollama_lm cloud_lm log_snippet use_both
        = .ok r →
      r.ollama.isSome = true ∧ r.cloud.isSome = use_both ∧
        r.comparison = none) ∧
    (∀ r, analyze_with_dual_llm ollama_lm cloud_lm judge log_snippet compare
        = .ok r →
      (r.comparison.isSome = true ↔
        (compare = true ∧ r.ollama.isSome = true ∧ r.cloud.isSome = true))) := by
  constructor
  · intro r hok
    obtain ⟨of, hb, hrest⟩ :=
      forward_ok_inv ollama_lm cloud_lm log_snippet use_both r hok
    rcases hrest with ⟨rfl, cf, hc, rfl⟩ | ⟨rfl, rfl⟩ <;> simp
  · intro r hok
    unfold analyze_with_dual_llm at hok
    cases hf : SentinelAnalyzer.forward ollama_lm cloud_lm log_snippet true with
    | error e => rw [hf] at hok; exact absurd hok (by simp)
    | ok results =>
        rw [hf] at hok
        obtain ⟨of, hb, hrest⟩ :=
          forward_ok_inv ollama_lm cloud_lm log_snippet true results hf
        rcases hrest with ⟨_, cf, hc, rfl⟩ | ⟨hfalse, _⟩
        · cases compare with
          | true =>
              have hok' : (match judge of cf with
                  | Except.error e => (Except.error e : Except String DualResult)
                  | Except.ok comp =>
                      Except.ok ⟨some of, some cf, some comp⟩) = Except.ok r :=
                hok
              cases hj : judge of cf with
              | error e => rw [hj] at hok'; exact absurd hok' (by simp)
              | ok comp =>
                  rw [hj] at hok'
                  have h' := Except.ok.inj hok'
                  subst h'
                  simp
          | false =>
              have h' := Except.ok.inj hok
              subst h'
              simp
        · exact absurd hfalse (by simp)

/-- Fixed structured fields used by concrete witnesses. -/
def fER : StructuredFields := ⟨"ERROR", "cat", "pat", "act", true⟩

/-- Witness for C5 at concrete backends, with and without comparison. -/
theorem dual_result_presence_witness :
    ((⟨some fER, some fER, none⟩ : DualResult).ollama.isSome = true ∧
     (⟨some fER, some fER, none⟩ : DualResult).cloud.isSome = true ∧
     (⟨some fER, some fER, none⟩ : DualResult).comparison = none) ∧
    ((⟨some fER, some fER,
        some ⟨"none", "high", "either"⟩⟩ : DualResult).comparison.isSome = true
      ↔ (true = true ∧
          (⟨some fER, some fER,
            some ⟨"none", "high", "either"⟩⟩ : DualResult).ollama.isSome = true ∧
          (⟨some fER, some fER,
            some ⟨"none", "high", "either"⟩⟩ : DualResult).cloud.isSome
            = true)) :=
  ⟨(dual_result_presence (okLM "ERROR") (okLM "ERROR") judgeOk "log"
      true true).1 ⟨some fER, some fER, none⟩ rfl,
   (dual_result_presence (okLM "ERROR") (okLM "ERROR") judgeOk "log"
      true true).2 ⟨some fER, some fER, some ⟨"none", "high", "either"⟩⟩ rfl⟩

/-- A fixed test case used by concrete witnesses. -/
def tcW : LLMTestCase := ⟨"log", "analysis", none, none⟩

theorem scoresFor_batch (m1 m2 m3 m4 : MeasureFn)
    (test_cases : List LLMTestCase) (name : String) (metric : Metric)
    (hmem : (name, metric) ∈ (SentinelEvaluator.init m1 m2 m3 m4).metrics) :
    scoresFor ((SentinelEvaluator.init m1 m2 m3 m4).batch_evaluate
        test_cases).individual_results name
      = test_cases.filterMap fun tc => (measureEntryBatch metric tc).score := by
  have hmap : ((SentinelEvaluator.init m1 m2 m3 m4).batch_evaluate
      test_cases).individual_results
      = test_cases.map (fun tc =>
          ({ test_case := tc
             results := (SentinelEvaluator.init m1 m2 m3 m4).metrics.map
               fun p => (p.1, measureEntryBatch p.2 tc) } : IndividualResult)) :=
    rfl
  unfold scoresFor
  rw [hmap, List.filterMap_map]
  congr 1
  funext tc
  show (((SentinelEvaluator.init m1 m2 m3 m4).metrics.map
      fun p => (p.1, measureEntryBatch p.2 tc)).lookup name).bind
        (fun e => e.score)
    = (measureEntryBatch metric tc).score
  rw [lookup_map_keyed (fun p => measureEntryBatch p.2 tc) _ name metric
    (init_metrics_nodup m1 m2 m3 m4) hmem]
  rfl

theorem scoresFor_length (m1 m2 m3 m4 : MeasureFn)
    (test_cases : List LLMTestCase) (name : String) (metric : Metric)
    (hmem : (name, metric) ∈ (SentinelEvaluator.init m1 m2 m3 m4).metrics) :
    (scoresFor ((SentinelEvaluator.init m1 m2 m3 m4).batch_evaluate
        test_cases).individual_results name).length
      = test_cases.countP fun tc => exceptIsOk (metric.measure tc) := by
  rw [scoresFor_batch m1 m2 m3 m4 test_cases name metric hmem]
  rw [List.length_filterMap_eq_countP]
  apply List.countP_congr
  intro tc _
  cases hm : metric.measure tc <;>
    simp [measureEntryBatch, emptyEntry, exceptIsOk, hm]

theorem aggregate_lookup (m1 m2 m3 m4 : MeasureFn)
    (test_cases : List LLMTestCase) (name : String) (metric : Metric)
    (hmem : (name, metric) ∈ (SentinelEvaluator.init m1 m2 m3 m4).metrics) :
    ((SentinelEvaluator.init m1 m2 m3 m4).batch_evaluate
        test_cases).aggregate_scores.lookup name
      = aggEntry ((SentinelEvaluator.init m1 m2 m3 m4).batch_evaluate
          test_cases).individual_results (name, metric) :=
  lookup_filterMap_keyed _ _ name metric (init_metrics_nodup m1 m2 m3 m4) hmem

/-- C6: for every registry metric, the aggregate row of `batch_evaluate`
(when present) has `count` equal to the number of cases whose scoring
function succeeded for that metric — erroring cases are excluded, not
coerced to zero — and its mean lies between its min and its max; a
metric for which no case produced a numeric score is omitted from the
aggregate entirely. -/
theorem batch_aggregate_stats (m1 m2 m3 m4 : MeasureFn)
    (test_cases : List LLMTestCase) (name : String) (metric : Metric)
    (hmem : (name, metric) ∈ (SentinelEvaluator.init m1 m2 m3 m4).metrics) :
    (∀ a, ((SentinelEvaluator.init m1 m2 m3 m4).batch_evaluate
        test_cases).aggregate_scores.lookup name = some a →
      a.count = test_cases.countP (fun tc => exceptIsOk (metric.measure tc)) ∧
      0 < a.count ∧ a.min ≤ a.mean ∧ a.mean ≤ a.max) ∧
    (test_cases.countP (fun tc => exceptIsOk (metric.measure tc)) = 0 →
      ((SentinelEvaluator.init m1 m2 m3 m4).batch_evaluate
        test_cases).aggregate_scores.lookup name = none) := by
  have hagg := aggregate_lookup m1 m2 m3 m4 test_cases name metric hmem
  have hlen := scoresFor_length m1 m2 m3 m4 test_cases name metric hmem
  constructor
  · intro a ha
    rw [hagg] at ha
    simp only [aggEntry] at ha
    cases hs : scoresFor ((SentinelEvaluator.init m1 m2 m3 m4).batch_evaluate
        test_cases).individual_results name with
    | nil => rw [hs] at ha; exact absurd ha (by simp)
    | cons s rest =>
        rw [hs] at ha
        simp only [Option.some.injEq] at ha
        subst ha
        refine ⟨?_, by simp, (mean_between s rest).1, (mean_between s rest).2⟩
        show (s :: rest).length = _
        rw [← hs, hlen]
  · intro hzero
    rw [hagg]
    simp only [aggEntry]
    cases hs : scoresFor ((SentinelEvaluator.init m1 m2 m3 m4).batch_evaluate
        test_cases).individual_results name with
    | nil => rfl
    | cons s rest =>
        rw [hs] at hlen
        rw [hzero] at hlen
        exact absurd hlen (by simp)

/-- Witness for C6: three cases where the relevance metric always scores
1 and the hallucination metric always raises. -/
theorem batch_aggregate_stats_witness :
    ((⟨1, 1, 1, 3⟩ : AggregateEntry).count
        = [tcW, tcW, tcW].countP (fun tc => exceptIsOk (mConst 1 tc)) ∧
      0 < (⟨1, 1, 1, 3⟩ : AggregateEntry).count ∧
      (⟨1, 1, 1, 3⟩ : AggregateEntry).min ≤ (⟨1, 1, 1, 3⟩ : AggregateEntry).mean ∧
      (⟨1, 1, 1, 3⟩ : AggregateEntry).mean ≤ (⟨1, 1, 1, 3⟩ : AggregateEntry).max) ∧
    ((SentinelEvaluator.init (mConst 1) (mFail "boom") (mConst 1)
        (mConst 1)).batch_evaluate
          [tcW, tcW, tcW]).aggregate_scores.lookup "hallucination" = none :=
  ⟨(batch_aggregate_stats (mConst 1) (mFail "boom") (mConst 1) (mConst 1)
      [tcW, tcW, tcW] "relevance" ⟨7/10, mConst 1⟩ (List.mem_cons_self _ _)).1
      ⟨1, 1, 1, 3⟩ (by
        simp [SentinelEvaluator.batch_evaluate, SentinelEvaluator.init,
          aggregateOf, aggEntry, scoresFor, measureEntryBatch, mConst, mFail,
          emptyEntry, List.lookup, List.filterMap]
        norm_num),
   (batch_aggregate_stats (mConst 1) (mFail "boom") (mConst 1) (mConst 1)
      [tcW, tcW, tcW] "hallucination" ⟨1/2, mFail "boom"⟩
      (List.mem_cons_of_mem _ (List.mem_cons_self _ _))).2 (by decide)⟩

theorem getScoreD_eval (m1 m2 m3 m4 : MeasureFn) (log_snippet analysis : String)
    (name : String) (metric : Metric)
    (hmem : (name, metric) ∈ (SentinelEvaluator.init m1 m2 m3 m4).metrics) :
    getScoreD ((SentinelEvaluator.init m1 m2 m3 m4).evaluate_analysis log_snippet
        analysis none).results name
      = scoreOrZero (metric.measure (create_test_case log_snippet analysis none
          (some "Installation log analysis"))) := by
  have hres : ((SentinelEvaluator.init m1 m2 m3 m4).evaluate_analysis log_snippet
      analysis none).results
      = (SentinelEvaluator.init m1 m2 m3 m4).metrics.map
          fun p => (p.1, measureEntryFull p.2 (create_test_case log_snippet
            analysis none (some "Installation log analysis"))) := rfl
  unfold getScoreD
  rw [hres, lookup_map_keyed _ _ name metric (init_metrics_nodup m1 m2 m3 m4)
    hmem]
  cases hm : metric.measure (create_test_case log_snippet analysis none
      (some "Installation log analysis")) <;>
    simp [measureEntryFull, emptyEntry, scoreOrZero, hm]

theorem comparison_lookup_entry (m1 m2 m3 m4 : MeasureFn)
    (log_snippet ollama_analysis cloud_analysis : String)
    (name : String) (metric : Metric)
    (hmem : (name, metric) ∈ (SentinelEvaluator.init m1 m2 m3 m4).metrics) :
    ((SentinelEvaluator.init m1 m2 m3 m4).evaluate_comparison log_snippet
        ollama_analysis cloud_analysis).comparison.lookup name
      = some ⟨scoreOrZero (metric.measure (create_test_case log_snippet
            ollama_analysis none (some "Installation log analysis"))),
          scoreOrZero (metric.measure (create_test_case log_snippet
            cloud_analysis none (some "Installation log analysis"))),
          scoreOrZero (metric.measure (create_test_case log_snippet
            cloud_analysis none (some "Installation log analysis")))
            - scoreOrZero (metric.measure (create_test_case log_snippet
              ollama_analysis none (some "Installation log analysis"))),
          if scoreOrZero (metric.measure (create_test_case log_snippet
              cloud_analysis none (some "Installation log analysis")))
            > scoreOrZero (metric.measure (create_test_case log_snippet
              ollama_analysis none (some "Installation log analysis")))
          then "cloud" else "ollama"⟩ := by
  have hcomp : ((SentinelEvaluator.init m1 m2 m3 m4).evaluate_comparison
      log_snippet ollama_analysis cloud_analysis).comparison
      = (SentinelEvaluator.init m1 m2 m3 m4).metrics.map fun p =>
          (p.1, ({ ollama := getScoreD ((SentinelEvaluator.init m1 m2 m3
                      m4).evaluate_analysis log_snippet ollama_analysis
                      none).results p.1
                   cloud := getScoreD ((SentinelEvaluator.init m1 m2 m3
                      m4).evaluate_analysis log_snippet cloud_analysis
                      none).results p.1
                   difference := getScoreD ((SentinelEvaluator.init m1 m2 m3
                      m4).evaluate_analysis log_snippet cloud_analysis
                      none).results p.1
                     - getScoreD ((SentinelEvaluator.init m1 m2 m3
                        m4).evaluate_analysis log_snippet ollama_analysis
                        none).results p.1
                   better := if getScoreD ((SentinelEvaluator.init m1 m2 m3
                        m4).evaluate_analysis log_snippet cloud_analysis
                        none).results p.1
                      > getScoreD ((SentinelEvaluator.init m1 m2 m3
                        m4).evaluate_analysis log_snippet ollama_analysis
                        none).results p.1
                     then "cloud" else "ollama" } : ComparisonEntry)) := rfl
  rw [hcomp, lookup_map_keyed _ _ name metric (init_metrics_nodup m1 m2 m3 m4)
    hmem]
  rw [getScoreD_eval m1 m2 m3 m4 log_snippet ollama_analysis name metric hmem,
    getScoreD_eval m1 m2 m3 m4 log_snippet cloud_analysis name metric hmem]

/-- C7: for every registry metric, the cross-source comparison entry is
present even when a side lacks a numeric score — the missing side
contributes a score defaulted to 0 — and satisfies
`difference = cloud − ollama` and `better = cloud` iff the cloud score
is strictly higher, ties going to `ollama`. -/
theorem comparison_entry_semantics (m1 m2 m3 m4 : MeasureFn)
    (log_snippet ollama_analysis cloud_analysis : String)
    (name : String) (metric : Metric)
    (hmem : (name, metric) ∈ (SentinelEvaluator.init m1 m2 m3 m4).metrics) :
    ((SentinelEvaluator.init m1 m2 m3 m4).evaluate_comparison log_snippet
        ollama_analysis cloud_analysis).comparison.lookup name
      = some ⟨scoreOrZero (metric.measure (create_test_case log_snippet
            ollama_analysis none (some "Installation log analysis"))),
          scoreOrZero (metric.measure (create_test_case log_snippet
            cloud_analysis none (some "Installation log analysis"))),
          scoreOrZero (metric.measure (create_test_case log_snippet
            cloud_analysis none (some "Installation log analysis")))
            - scoreOrZero (metric.measure (create_test_case log_snippet
              ollama_analysis none (some "Installation log analysis"))),
          if scoreOrZero (metric.measure (create_test_case log_snippet
              cloud_analysis none (some "Installation log analysis")))
            > scoreOrZero (metric.measure (create_test_case log_snippet
              ollama_analysis none (some "Installation log analysis")))
          then "cloud" else "ollama"⟩ :=
  comparison_lookup_entry m1 m2 m3 m4 log_snippet ollama_analysis
    cloud_analysis name metric hmem

/-- A scoring function whose score depends on the analyzed output. -/
def mByOutput : MeasureFn :=
  fun tc => .ok ⟨if tc.actual_output = "good" then 1 else 1/4, none⟩

/-- Witness for C7: the cloud side scores strictly higher. -/
theorem comparison_entry_semantics_witness :
    ((SentinelEvaluator.init mByOutput mByOutput mByOutput
        mByOutput).evaluate_comparison "log" "bad" "good").comparison.lookup
      "relevance" = some ⟨1/4, 1, 1 - (1/4 : ℚ), "cloud"⟩ := by
  have h := comparison_entry_semantics mByOutput mByOutput mByOutput mByOutput
    "log" "bad" "good" "relevance" ⟨7/10, mByOutput⟩ (List.mem_cons_self _ _)
  have hne : ¬ ("bad" : String) = "good" := by decide
  rw [h]
  norm_num [scoreOrZero, mByOutput, create_test_case, hne]

/-- C8: comparing identical output text on both sides (every scoring
function in the embedding is a pure, hence deterministic, function)
yields difference 0 and better = "ollama" (the tie-break default) for
every metric. -/
theorem compare_identical_outputs (m1 m2 m3 m4 : MeasureFn)
    (log_snippet analysis : String) (name : String) (entry : ComparisonEntry)
    (hmem : (name, entry) ∈ ((SentinelEvaluator.init m1 m2 m3
        m4).evaluate_comparison log_snippet analysis analysis).comparison) :
    entry.difference = 0 ∧ entry.better = "ollama" := by
  have hcomp : ((SentinelEvaluator.init m1 m2 m3 m4).evaluate_comparison
      log_snippet analysis analysis).comparison
      = (SentinelEvaluator.init m1 m2 m3 m4).metrics.map fun p =>
          (p.1, ({ ollama := getScoreD ((SentinelEvaluator.init m1 m2 m3
                      m4).evaluate_analysis log_snippet analysis none).results
                      p.1
                   cloud := getScoreD ((SentinelEvaluator.init m1 m2 m3
                      m4).evaluate_analysis log_snippet analysis none).results
                      p.1
                   difference := getScoreD ((SentinelEvaluator.init m1 m2 m3
                      m4).evaluate_analysis log_snippet analysis none).results
                      p.1
                     - getScoreD ((SentinelEvaluator.init m1 m2 m3
                        m4).evaluate_analysis log_snippet analysis
                        none).results p.1
                   better := if getScoreD ((SentinelEvaluator.init m1 m2 m3
                        m4).evaluate_analysis log_snippet analysis
                        none).results p.1
                      > getScoreD ((SentinelEvaluator.init m1 m2 m3
                        m4).evaluate_analysis log_snippet analysis
                        none).results p.1
                     then "cloud" else "ollama" } : ComparisonEntry)) := rfl
  rw [hcomp] at hmem
  obtain ⟨p, _, heq⟩ := List.mem_map.mp hmem
  injection heq with h1 h2
  subst h2
  constructor
  · exact sub_self _
  · simp

/-- Witness for C8 at a concrete registry and analysis text. -/
theorem compare_identical_outputs_witness :
    (⟨1, 1, 0, "ollama"⟩ : ComparisonEntry).difference = 0 ∧
    (⟨1, 1, 0, "ollama"⟩ : ComparisonEntry).better = "ollama" :=
  compare_identical_outputs (mConst 1) (mConst 1) (mConst 1) (mConst 1)
    "log" "analysis" "relevance" ⟨1, 1, 0, "ollama"⟩ (by
      simp [SentinelEvaluator.evaluate_comparison,
        SentinelEvaluator.evaluate_analysis, SentinelEvaluator.init,
        getScoreD, measureEntryFull, mConst, emptyEntry, List.lookup,
        create_test_case])

/-- C9: `batch_evaluate` returns exactly one individual result per input
test case, in input order, and each one carries a (scored or
error-bearing) entry for each of the four registry metrics in registry
order. -/
theorem batch_individual_structure (m1 m2 m3 m4 : MeasureFn)
    (test_cases : List LLMTestCase) :
    ((SentinelEvaluator.init m1 m2 m3 m4).batch_evaluate
        test_cases).individual_results.map (fun r => r.test_case)
      = test_cases ∧
    ∀ r ∈ ((SentinelEvaluator.init m1 m2 m3 m4).batch_evaluate
        test_cases).individual_results,
      r.results.map Prod.fst = metricNames ∧
      ∀ q ∈ r.results,
        (q.2.score.isSome = true ∧ q.2.error = none) ∨
        (q.2.error.isSome = true ∧ q.2.score = none ∧ q.2.passed = none) := by
  have h0 : ((SentinelEvaluator.init m1 m2 m3 m4).batch_evaluate
      test_cases).individual_results
      = test_cases.map (fun tc =>
          ({ test_case := tc
             results := (SentinelEvaluator.init m1 m2 m3 m4).metrics.map
               fun p => (p.1, measureEntryBatch p.2 tc) } :
             IndividualResult)) := rfl
  constructor
  · rw [h0, List.map_map]
    exact List.map_id test_cases
  · intro r hr
    rw [h0] at hr
    obtain ⟨tc, _, rfl⟩ := List.mem_map.mp hr
    constructor
    · rfl
    · intro q hq
      obtain ⟨p, _, rfl⟩ := List.mem_map.mp hq
      cases hm : p.2.measure tc with
      | ok out => left; simp [measureEntryBatch, emptyEntry, hm]
      | error e => right; simp [measureEntryBatch, emptyEntry, hm]

/-- Witness for C9 at a concrete registry and batch. -/
theorem batch_individual_structure_witness :
    ((SentinelEvaluator.init (mConst 1) (mFail "boom") (mConst 1)
        (mConst 1)).batch_evaluate [tcW]).individual_results.map
      (fun r => r.test_case) = [tcW] ∧
    ∀ r ∈ ((SentinelEvaluator.init (mConst 1) (mFail "boom") (mConst 1)
        (mConst 1)).batch_evaluate [tcW]).individual_results,
      r.results.map Prod.fst = metricNames ∧
      ∀ q ∈ r.results,
        (q.2.score.isSome = true ∧ q.2.error = none) ∨
        (q.2.error.isSome = true ∧ q.2.score = none ∧ q.2.passed = none) :=
  batch_individual_structure (mConst 1) (mFail "boom") (mConst 1) (mConst 1)
    [tcW]

/-- C10: the cross-source comparison has an entry for each of the four
registry metrics in registry order regardless of scoring errors, the
better field is always "ollama" or "cloud", and a metric whose scoring
function raises on both sides yields the entry (0, 0, 0, "ollama"). -/
theorem comparison_structure (m1 m2 m3 m4 : MeasureFn)
    (log_snippet ollama_analysis cloud_analysis : String) :
    ((SentinelEvaluator.init m1 m2 m3 m4).evaluate_comparison log_snippet
        ollama_analysis cloud_analysis).comparison.map Prod.fst
      = metricNames ∧
    (∀ q ∈ ((SentinelEvaluator.init m1 m2 m3 m4).evaluate_comparison
        log_snippet ollama_analysis cloud_analysis).comparison,
      q.2.better = "ollama" ∨ q.2.better = "cloud") ∧
    (∀ name metric,
      (name, metric) ∈ (SentinelEvaluator.init m1 m2 m3 m4).metrics →
      ∀ e1 e2,
        metric.measure (create_test_case log_snippet ollama_analysis none
          (some "Installation log analysis")) = .error e1 →
        metric.measure (create_test_case log_snippet cloud_analysis none
          (some "Installation log analysis")) = .error e2 →
        ((SentinelEvaluator.init m1 m2 m3 m4).evaluate_comparison log_snippet
            ollama_analysis cloud_analysis).comparison.lookup name
          = some ⟨0, 0, 0, "ollama"⟩) := by
  refine ⟨rfl, ?_, ?_⟩
  · intro q hq
    obtain ⟨p, _, rfl⟩ := List.mem_map.mp hq
    by_cases hgt : getScoreD ((SentinelEvaluator.init m1 m2 m3
          m4).evaluate_analysis log_snippet cloud_analysis none).results p.1
        > getScoreD ((SentinelEvaluator.init m1 m2 m3
          m4).evaluate_analysis log_snippet ollama_analysis none).results p.1
    · right
      show (if _ > _ then "cloud" else "ollama") = "cloud"
      exact if_pos hgt
    · left
      show (if _ > _ then "cloud" else "ollama") = "ollama"
      exact if_neg hgt
  · intro name metric hmem e1 e2 h1 h2
    rw [comparison_lookup_entry m1 m2 m3 m4 log_snippet ollama_analysis
      cloud_analysis name metric hmem, h1, h2]
    norm_num [scoreOrZero]

/-- Witness for C10: a metric erroring on both sides. -/
theorem comparison_structure_witness :
    ((⟨0, 0, 0, "ollama"⟩ : ComparisonEntry).better = "ollama" ∨
      (⟨0, 0, 0, "ollama"⟩ : ComparisonEntry).better = "cloud") ∧
    ((SentinelEvaluator.init (mConst 1) (mFail "boom") (mConst 1)
        (mConst 1)).evaluate_comparison "log" "left" "right").comparison.lookup
      "hallucination" = some ⟨0, 0, 0, "ollama"⟩ :=
  ⟨(comparison_structure (mConst 1) (mFail "boom") (mConst 1) (mConst 1)
      "log" "left" "right").2.1 ("hallucination", ⟨0, 0, 0, "ollama"⟩) (by
        simp [SentinelEvaluator.evaluate_comparison,
          SentinelEvaluator.evaluate_analysis, SentinelEvaluator.init,
          getScoreD, measureEntryFull, mConst, mFail, emptyEntry, List.lookup,
          create_test_case]),
   (comparison_structure (mConst 1) (mFail "boom") (mConst 1) (mConst 1)
      "log" "left" "right").2.2 "hallucination" ⟨1/2, mFail "boom"⟩
      (List.mem_cons_of_mem _ (List.mem_cons_self _ _)) "boom" "boom" rfl rfl⟩

end Sentinel
